import Mathlib

/-!
Verification of `src/ace_routine/cli/CommandDispatcher.h` (namespace
`ace_routine::cli`, class `CommandDispatcher`).

The class is embedded shallowly:

* `tokenize` models the `strtok`-based loop of `CommandDispatcher::tokenize`
  (lines 140-149): repeatedly extract the next maximal run of non-delimiter
  characters, stopping at end of line or after `argvSize` tokens.
* `runCommand`, `helpCommandHandler` and `printLineError` model the methods of
  the same names.  Calls to `Serial.print` / `Serial.println` and invocations
  of a registered handler become `Event`s in an output trace; a handler body is
  external code, so invoking the handler of the i-th dispatch-table entry is
  recorded as `Event.call i argc argv`.
* `runRoutine` (lines 151-168) is a coroutine with a single await point
  (`SerialReader::getLine`).  It is embedded as the state machine
  `stepCalls` / `runCalls` over `DState` fed a finite list of `Outcome`s, one
  per completed await; `runDispatcher` additionally expands each consequence
  (`Call`) into its output events.
-/

namespace AceRoutineCli

/-- Modelled from the spec: the delimiter set `CommandDispatcher::DELIMS` is
declared at line 62 of the header but its definition lives outside the sources
provided; per the spec the delimiters are space and tab. -/
def isDelim (c : Char) : Bool :=
  c = ' ' || c = '\t'

/-- `static const uint8_t ARGV_SIZE = 10` (line 25). -/
def ARGV_SIZE : Nat := 10

/-- `static const uint8_t STATUS_SUCCESS = 0` (line 59). -/
def STATUS_SUCCESS : Nat := 0

/-- `static const uint8_t STATUS_BUFFER_OVERFLOW = 1` (line 60). -/
def STATUS_BUFFER_OVERFLOW : Nat := 1

/-- `static const uint8_t STATUS_FLUSH_TO_EOL = 2` (line 61). -/
def STATUS_FLUSH_TO_EOL : Nat := 2

/-- One `strtok(_, DELIMS)` call on the remaining input: skip leading
delimiters; if nothing is left there is no token (`nullptr`), otherwise the
token is the maximal run of non-delimiter characters and the rest of the input
follows it. -/
def nextToken (isd : Char → Bool) (s : List Char) : Option (List Char × List Char) :=
  match s.dropWhile isd with
  | [] => none
  | c :: cs => some ((c :: cs).takeWhile (fun x => !(isd x)),
                     (c :: cs).dropWhile (fun x => !(isd x)))

/-- The loop of `CommandDispatcher::tokenize` (lines 143-147):
`while (token != nullptr && argc < argvSize)` collect tokens.  The remaining
capacity `avail` strictly decreases at each collected token, exactly as `argc`
increases toward `argvSize` in the source. -/
def tokenizeGo (isd : Char → Bool) : Nat → List Char → List (List Char)
  | 0, _ => []
  | avail + 1, s =>
    match nextToken isd s with
    | none => []
    | some (t, rest) => t :: tokenizeGo isd avail rest

/-- `CommandDispatcher::tokenize` (lines 140-149) on a line, with the default
delimiters: the list of captured tokens, of length `argc`. -/
def tokenize (argvSize : Nat) (line : String) : List String :=
  (tokenizeGo isDelim argvSize line.data).map List.asString

/-- All tokens of a line, with no capacity limit.  Each captured token consumes
at least one character, so fuel `s.length + 1` never runs out
(`tokenizeGo_high_fuel` below). -/
def allTokens (isd : Char → Bool) (s : List Char) : List (List Char) :=
  tokenizeGo isd (s.length + 1) s

example : tokenize ARGV_SIZE "a  b\tc" = ["a", "b", "c"] := by decide

example : tokenize ARGV_SIZE "" = [] := by decide

example : tokenize ARGV_SIZE " \t " = [] := by decide

example : tokenize ARGV_SIZE "a b c d e f g h i j k l" =
    ["a", "b", "c", "d", "e", "f", "g", "h", "i", "j"] := by decide

/-- `CommandDispatcher::DispatchRecord` (lines 36-40): command name and usage
string.  The `handler` function pointer is external application code; its
invocation is modelled by the `Event.call` trace event carrying the entry's
index in the dispatch table. -/
structure DispatchRecord where
  name : String
  helpString : String
deriving DecidableEq, Repr

/-- One observable action of the dispatcher: a `Serial.print`, a
`Serial.println`, or the invocation of the handler of the dispatch-table entry
at index `i` with the given `argc` and `argv`. -/
inductive Event where
  | print (s : String)
  | println (s : String)
  | call (i : Nat) (argc : Nat) (argv : List String)
deriving DecidableEq, Repr

/-- `CommandDispatcher::printLineError` (lines 64-74). -/
def printLineError (line : String) (statusCode : Nat) : List Event :=
  if statusCode = STATUS_BUFFER_OVERFLOW then
    [Event.print "BufferOverflow: ", Event.println line]
  else if statusCode = STATUS_FLUSH_TO_EOL then
    [Event.print "FlushToEOL: ", Event.println line]
  else
    [Event.println "UnknownError"]

/-- The `argc == 2` scan of `helpCommandHandler` (lines 85-96): first record
whose name equals `cmd` wins and its usage is printed; otherwise the loop falls
through to the "Unknown command" report. -/
def helpScan (cmd : String) : List DispatchRecord → List Event
  | [] => [Event.print "Unknown command: ", Event.println cmd]
  | r :: rs =>
    if r.name = cmd then
      [Event.print "Usage: ", Event.print cmd, Event.print " ",
       Event.println r.helpString]
    else
      helpScan cmd rs

/-- The `else` branch of `helpCommandHandler` (lines 97-106): usage banner,
then "Commands: help " followed by every registered name in table order, each
followed by a space, then a final empty `println`. -/
def helpBanner (table : List DispatchRecord) : List Event :=
  [Event.println "Usage: help [command]", Event.print "Commands: help "]
    ++ (table.map fun r => [Event.print r.name, Event.print " "]).flatten
    ++ [Event.println ""]

/-- `CommandDispatcher::helpCommandHandler` (lines 77-107). -/
def helpCommandHandler (table : List DispatchRecord) (argc : Nat)
    (argv : List String) : List Event :=
  if argc = 2 then
    let cmd := argv.getD 1 ""
    if cmd = "help" then [Event.println "Usage: help [command]"]
    else helpScan cmd table
  else
    helpBanner table

/-- The dispatch-table loop of `runCommand` (lines 127-136): linear scan, the
first record whose name equals `cmd` has its handler invoked (recorded with
the record's absolute table index `i0 + position`); if no record matches,
"Unknown command" is printed. -/
def dispatchScan (cmd : String) (argc : Nat) (argv : List String) :
    Nat → List DispatchRecord → List Event
  | _, [] => [Event.print "Unknown command: ", Event.println cmd]
  | i0, r :: rs =>
    if r.name = cmd then [Event.call i0 argc argv]
    else dispatchScan cmd argc argv (i0 + 1) rs

/-- `CommandDispatcher::runCommand` (lines 110-137): tokenize the line; an
empty token list is a silent no-op; the built-in "help" command is intercepted
before the table scan. -/
def runCommand (table : List DispatchRecord) (line : String) : List Event :=
  match tokenize ARGV_SIZE line with
  | [] => []
  | cmd :: args =>
    if cmd = "help" then
      helpCommandHandler table (cmd :: args).length (cmd :: args)
    else
      dispatchScan cmd (cmd :: args).length (cmd :: args) 0 table

/-- One completed `SerialReader::getLine` await: `*isError` and `*line` as set
by the reader (`success` = `isError` false, `overflow` = `isError` true). -/
inductive Outcome where
  | success (line : String)
  | overflow (line : String)
deriving DecidableEq, Repr

/-- Control position of `runRoutine` between two awaits: `awaitLine` is the
top-of-loop await (line 155), `recoverOverflow` is the await inside the
`while (isError)` flush loop (line 160). -/
inductive DState where
  | awaitLine
  | recoverOverflow
deriving DecidableEq, Repr

/-- The two kinds of calls `runRoutine` makes between awaits: a
`printLineError(line, statusCode)` call or a `runCommand(line)` call. -/
inductive Call where
  | lineError (line : String) (statusCode : Nat)
  | command (line : String)
deriving DecidableEq, Repr

/-- Expand a call into its output events. -/
def Call.output (table : List DispatchRecord) : Call → List Event
  | Call.lineError l c => printLineError l c
  | Call.command l => runCommand table l

/-- One step of `runRoutine` (lines 151-168): the calls made, and the await
reached next, after one `getLine` await completes.

* At the top-of-loop await, an error line gets `printLineError(line,
  STATUS_BUFFER_OVERFLOW)` and control enters the `while (isError)` loop; a
  clean line gets `runCommand(line)` and control returns to the top await.
* Inside the `while (isError)` loop the body runs `printLineError(line,
  STATUS_FLUSH_TO_EOL)` after every await, before re-testing `isError` — so
  the fragment that finally reports success is also reported (and discarded),
  after which `continue` returns control to the top await. -/
def stepCalls : DState → Outcome → DState × List Call
  | DState.awaitLine, Outcome.overflow l =>
    (DState.recoverOverflow, [Call.lineError l STATUS_BUFFER_OVERFLOW])
  | DState.awaitLine, Outcome.success l =>
    (DState.awaitLine, [Call.command l])
  | DState.recoverOverflow, Outcome.overflow l =>
    (DState.recoverOverflow, [Call.lineError l STATUS_FLUSH_TO_EOL])
  | DState.recoverOverflow, Outcome.success l =>
    (DState.awaitLine, [Call.lineError l STATUS_FLUSH_TO_EOL])

/-- Run the dispatch loop over a finite sequence of completed awaits,
collecting every call made. -/
def runCalls : DState → List Outcome → DState × List Call
  | s, [] => (s, [])
  | s, o :: os =>
    let (s1, cs) := stepCalls s o
    let (s2, cs2) := runCalls s1 os
    (s2, cs ++ cs2)

/-- The dispatch loop's full observable behaviour over a finite sequence of
completed awaits: final control position and the flattened output trace. -/
def runDispatcher (table : List DispatchRecord) (s : DState)
    (os : List Outcome) : DState × List Event :=
  let (s1, cs) := runCalls s os
  (s1, (cs.map (Call.output table)).flatten)

example :
    runCommand [DispatchRecord.mk "foo" "args"] "foo x y" =
      [Event.call 0 3 ["foo", "x", "y"]] := by decide

example :
    runCommand [DispatchRecord.mk "foo" "args"] "bar" =
      [Event.print "Unknown command: ", Event.println "bar"] := by decide

example :
    runCommand [DispatchRecord.mk "foo" "args"] "help foo" =
      [Event.print "Usage: ", Event.print "foo", Event.print " ",
       Event.println "args"] := by decide

example :
    (runDispatcher [] DState.awaitLine
      [Outcome.overflow "abc", Outcome.overflow "def",
       Outcome.success "ghi"]).2 =
      [Event.print "BufferOverflow: ", Event.println "abc",
       Event.print "FlushToEOL: ", Event.println "def",
       Event.print "FlushToEOL: ", Event.println "ghi"] := by decide

/-! Basic facts about `dropWhile`, `nextToken` and `tokenizeGo`. -/

theorem dropWhile_head_false {α : Type} (p : α → Bool) :
    ∀ (l : List α) (c : α) (cs : List α), l.dropWhile p = c :: cs → p c = false := by
  intro l
  induction l with
  | nil => intro c cs h; simp [List.dropWhile] at h
  | cons a l ih =>
    intro c cs h
    rw [List.dropWhile_cons] at h
    by_cases ha : p a = true
    · rw [if_pos ha] at h
      exact ih c cs h
    · rw [if_neg ha] at h
      obtain ⟨rfl, -⟩ := List.cons.injEq a l c cs ▸ h
      simpa using ha

theorem length_dropWhile_le {α : Type} (p : α → Bool) :
    ∀ l : List α, (l.dropWhile p).length ≤ l.length := by
  intro l
  induction l with
  | nil => simp
  | cons a l ih =>
    rw [List.dropWhile_cons]
    by_cases h : p a = true
    · rw [if_pos h]
      exact Nat.le_succ_of_le ih
    · rw [if_neg h]

theorem nextToken_some (isd : Char → Bool) (s t rest : List Char)
    (h : nextToken isd s = some (t, rest)) :
    t ≠ [] ∧ (∀ c ∈ t, isd c = false) ∧ rest.length < s.length := by
  unfold nextToken at h
  cases hd : s.dropWhile isd with
  | nil => rw [hd] at h; simp at h
  | cons c cs =>
    rw [hd] at h
    simp only [Option.some.injEq, Prod.mk.injEq] at h
    obtain ⟨ht, hrest⟩ := h
    have hc : isd c = false := dropWhile_head_false isd s c cs hd
    have hlen : (c :: cs).length ≤ s.length := hd ▸ length_dropWhile_le isd s
    refine ⟨?_, ?_, ?_⟩
    · rw [← ht, List.takeWhile_cons_of_pos (by simp [hc])]
      simp
    · intro x hx
      rw [← ht] at hx
      have := List.mem_takeWhile_imp hx
      simpa using this
    · rw [← hrest, List.dropWhile_cons_of_pos (by simp [hc])]
      have h1 : (cs.dropWhile fun x => !(isd x)).length ≤ cs.length :=
        length_dropWhile_le _ cs
      have h2 : cs.length < (c :: cs).length := by simp
      omega

theorem tokenizeGo_succ_none {isd : Char → Bool} {s : List Char} (avail : Nat)
    (hnt : nextToken isd s = none) :
    tokenizeGo isd (avail + 1) s = [] := by
  simp [tokenizeGo, hnt]

theorem tokenizeGo_succ_some {isd : Char → Bool} {s t rest : List Char} (avail : Nat)
    (hnt : nextToken isd s = some (t, rest)) :
    tokenizeGo isd (avail + 1) s = t :: tokenizeGo isd avail rest := by
  simp [tokenizeGo, hnt]

theorem tokenizeGo_high_fuel (isd : Char → Bool) :
    ∀ (f : Nat) (s : List Char), s.length < f →
      tokenizeGo isd f s = allTokens isd s := by
  intro f
  induction f using Nat.strong_induction_on with
  | _ f ih =>
    intro s hs
    cases f with
    | zero => exact absurd hs (Nat.not_lt_zero _)
    | succ f2 =>
      have hs2 : s.length ≤ f2 := Nat.lt_succ_iff.mp hs
      cases hnt : nextToken isd s with
      | none =>
        rw [tokenizeGo_succ_none f2 hnt]
        unfold allTokens
        rw [tokenizeGo_succ_none s.length hnt]
      | some tr =>
        obtain ⟨t, rest⟩ := tr
        obtain ⟨-, -, hlt⟩ := nextToken_some isd s t rest hnt
        have e1 : tokenizeGo isd f2 rest = allTokens isd rest :=
          ih f2 (Nat.lt_succ_self _) rest (Nat.lt_of_lt_of_le hlt hs2)
        have e2 : tokenizeGo isd s.length rest = allTokens isd rest :=
          ih s.length hs rest hlt
        rw [tokenizeGo_succ_some f2 hnt]
        unfold allTokens
        rw [tokenizeGo_succ_some s.length hnt, e1, e2]

theorem tokenizeGo_eq_take (isd : Char → Bool) :
    ∀ (n : Nat) (s : List Char),
      tokenizeGo isd n s = (allTokens isd s).take n := by
  intro n
  induction n with
  | zero => intro s; simp [tokenizeGo]
  | succ n ih =>
    intro s
    cases hnt : nextToken isd s with
    | none =>
      rw [tokenizeGo_succ_none n hnt]
      have hall : allTokens isd s = [] := tokenizeGo_succ_none s.length hnt
      rw [hall]
      simp
    | some tr =>
      obtain ⟨t, rest⟩ := tr
      obtain ⟨-, -, hlt⟩ := nextToken_some isd s t rest hnt
      have hall : allTokens isd s = t :: allTokens isd rest := by
        show tokenizeGo isd (s.length + 1) s = t :: allTokens isd rest
        rw [tokenizeGo_succ_some s.length hnt, tokenizeGo_high_fuel isd s.length rest hlt]
      rw [tokenizeGo_succ_some n hnt, hall, List.take_succ_cons, ih rest]

theorem tokenizeGo_tokens_ok (isd : Char → Bool) :
    ∀ (n : Nat) (s : List Char) (t : List Char), t ∈ tokenizeGo isd n s →
      t ≠ [] ∧ ∀ c ∈ t, isd c = false := by
  intro n
  induction n with
  | zero => intro s t ht; simp [tokenizeGo] at ht
  | succ n ih =>
    intro s t ht
    cases hnt : nextToken isd s with
    | none => rw [tokenizeGo_succ_none n hnt] at ht; simp at ht
    | some tr =>
      obtain ⟨t0, rest⟩ := tr
      rw [tokenizeGo_succ_some n hnt] at ht
      rcases List.mem_cons.mp ht with h | h
      · subst h
        obtain ⟨h1, h2, -⟩ := nextToken_some isd s t rest hnt
        exact ⟨h1, h2⟩
      · exact ih rest t h

theorem nextToken_all_delim (isd : Char → Bool) (s : List Char)
    (h : ∀ c ∈ s, isd c = true) : nextToken isd s = none := by
  unfold nextToken
  have hd : s.dropWhile isd = [] := List.dropWhile_eq_nil_iff.mpr h
  rw [hd]

theorem nextToken_all_nondelim (isd : Char → Bool) (name : List Char)
    (hne : name ≠ []) (hnd : ∀ x ∈ name, isd x = false) :
    nextToken isd name = some (name, []) := by
  obtain ⟨c, name2, rfl⟩ := List.exists_cons_of_ne_nil hne
  have hc : isd c = false := hnd c (List.mem_cons_self c name2)
  unfold nextToken
  rw [List.dropWhile_cons_of_neg (by simp [hc])]
  have ht : (c :: name2).takeWhile (fun x => !(isd x)) = c :: name2 :=
    List.takeWhile_eq_self_iff.mpr (by intro x hx; simp [hnd x hx])
  have hd : (c :: name2).dropWhile (fun x => !(isd x)) = [] :=
    List.dropWhile_eq_nil_iff.mpr (by intro x hx; simp [hnd x hx])
  show some ((c :: name2).takeWhile (fun x => !(isd x)),
             (c :: name2).dropWhile (fun x => !(isd x))) = some (c :: name2, [])
  rw [ht, hd]

theorem nextToken_sep (isd : Char → Bool) (name tail : List Char) (d : Char)
    (hne : name ≠ []) (hnd : ∀ x ∈ name, isd x = false) (hd : isd d = true) :
    nextToken isd (name ++ d :: tail) = some (name, d :: tail) := by
  obtain ⟨c, name2, rfl⟩ := List.exists_cons_of_ne_nil hne
  have hc : isd c = false := hnd c (List.mem_cons_self c name2)
  have hnd2 : ∀ x ∈ name2, isd x = false :=
    fun x hx => hnd x (List.mem_cons_of_mem c hx)
  unfold nextToken
  rw [List.cons_append, List.dropWhile_cons_of_neg (by simp [hc])]
  have ht : (c :: (name2 ++ d :: tail)).takeWhile (fun x => !(isd x)) =
      c :: name2 := by
    rw [List.takeWhile_cons_of_pos (by simp [hc]),
      List.takeWhile_append_of_pos (by intro x hx; simp [hnd2 x hx]),
      List.takeWhile_cons_of_neg (by simp [hd])]
    simp
  have hdr : (c :: (name2 ++ d :: tail)).dropWhile (fun x => !(isd x)) =
      d :: tail := by
    rw [List.dropWhile_cons_of_pos (by simp [hc]),
      List.dropWhile_append_of_pos (by intro x hx; simp [hnd2 x hx]),
      List.dropWhile_cons_of_neg (by simp [hd])]
  show some ((c :: (name2 ++ d :: tail)).takeWhile (fun x => !(isd x)),
             (c :: (name2 ++ d :: tail)).dropWhile (fun x => !(isd x))) =
    some (c :: name2, d :: tail)
  rw [ht, hdr]

theorem nextToken_skip_delim (isd : Char → Bool) (d : Char) (s : List Char)
    (hd : isd d = true) : nextToken isd (d :: s) = nextToken isd s := by
  unfold nextToken
  rw [List.dropWhile_cons_of_pos (by simp [hd])]

/-! Tokenization of the specific line shapes used by the claims. -/

theorem asString_data (cs : List Char) : (List.asString cs).data = cs := rfl

theorem tokenize_name_x_y (name : String) (hne : name.data ≠ [])
    (hnd : ∀ c ∈ name.data, isDelim c = false) :
    tokenize ARGV_SIZE (name ++ " x y") = [name, "x", "y"] := by
  unfold tokenize
  have hdata : (name ++ " x y").data =
      name.data ++ ' ' :: 'x' :: ' ' :: 'y' :: [] := by
    rw [String.data_append]
  rw [hdata]
  have h1 : nextToken isDelim (name.data ++ ' ' :: 'x' :: ' ' :: 'y' :: []) =
      some (name.data, ' ' :: 'x' :: ' ' :: 'y' :: []) :=
    nextToken_sep isDelim name.data _ ' ' hne hnd (by decide)
  rw [show ARGV_SIZE = 9 + 1 from rfl, tokenizeGo_succ_some 9 h1]
  rw [show tokenizeGo isDelim 9 (' ' :: 'x' :: ' ' :: 'y' :: []) =
        [['x'], ['y']] from rfl]
  simp [List.asString]

theorem tokenize_help_name (name : String) (hne : name.data ≠ [])
    (hnd : ∀ c ∈ name.data, isDelim c = false) :
    tokenize ARGV_SIZE ("help " ++ name) = ["help", name] := by
  unfold tokenize
  have hdata : ("help " ++ name).data =
      ('h' :: 'e' :: 'l' :: 'p' :: []) ++ ' ' :: name.data := by
    rw [String.data_append]
    rfl
  rw [hdata]
  have h1 : nextToken isDelim (('h' :: 'e' :: 'l' :: 'p' :: []) ++ ' ' :: name.data) =
      some ('h' :: 'e' :: 'l' :: 'p' :: [], ' ' :: name.data) :=
    nextToken_sep isDelim _ _ ' ' (by simp) (by decide) (by decide)
  rw [show ARGV_SIZE = 9 + 1 from rfl, tokenizeGo_succ_some 9 h1]
  have h2 : nextToken isDelim (' ' :: name.data) = some (name.data, []) := by
    rw [nextToken_skip_delim isDelim ' ' name.data (by decide)]
    exact nextToken_all_nondelim isDelim name.data hne hnd
  rw [show (9 : Nat) = 8 + 1 from rfl, tokenizeGo_succ_some 8 h2]
  rw [show (8 : Nat) = 7 + 1 from rfl,
    tokenizeGo_succ_none 7 (show nextToken isDelim [] = none from rfl)]
  simp [List.asString]

theorem tokenize_all_delim (line : String)
    (h : ∀ c ∈ line.data, isDelim c = true) :
    tokenize ARGV_SIZE line = [] := by
  unfold tokenize
  rw [show ARGV_SIZE = 9 + 1 from rfl,
    tokenizeGo_succ_none 9 (nextToken_all_delim isDelim line.data h)]
  rfl

/-! Facts about the dispatch-table and help scans. -/

theorem dispatchScan_not_found (cmd : String) (argc : Nat) (argv : List String) :
    ∀ (table : List DispatchRecord) (i0 : Nat), (∀ r ∈ table, r.name ≠ cmd) →
      dispatchScan cmd argc argv i0 table =
        [Event.print "Unknown command: ", Event.println cmd] := by
  intro table
  induction table with
  | nil => intro i0 _; rfl
  | cons r rs ih =>
    intro i0 h
    show (if r.name = cmd then [Event.call i0 argc argv]
          else dispatchScan cmd argc argv (i0 + 1) rs) = _
    rw [if_neg (h r (List.mem_cons_self r rs))]
    exact ih (i0 + 1) (fun x hx => h x (List.mem_cons_of_mem r hx))

theorem dispatchScan_found (cmd : String) (argc : Nat) (argv : List String)
    (r : DispatchRecord) (hr : r.name = cmd) :
    ∀ (pre post : List DispatchRecord) (i0 : Nat), (∀ x ∈ pre, x.name ≠ cmd) →
      dispatchScan cmd argc argv i0 (pre ++ r :: post) =
        [Event.call (i0 + pre.length) argc argv] := by
  intro pre
  induction pre with
  | nil =>
    intro post i0 _
    show (if r.name = cmd then [Event.call i0 argc argv]
          else dispatchScan cmd argc argv (i0 + 1) (([] : List DispatchRecord) ++ post)) = _
    rw [if_pos hr]
    simp
  | cons x xs ih =>
    intro post i0 h
    rw [List.cons_append]
    show (if x.name = cmd then [Event.call i0 argc argv]
          else dispatchScan cmd argc argv (i0 + 1) (xs ++ r :: post)) = _
    rw [if_neg (h x (List.mem_cons_self x xs))]
    rw [ih post (i0 + 1) (fun y hy => h y (List.mem_cons_of_mem x hy))]
    have : i0 + 1 + xs.length = i0 + (x :: xs).length := by
      simp [List.length_cons]
      omega
    rw [this]

theorem helpScan_not_found (cmd : String) :
    ∀ table : List DispatchRecord, (∀ r ∈ table, r.name ≠ cmd) →
      helpScan cmd table =
        [Event.print "Unknown command: ", Event.println cmd] := by
  intro table
  induction table with
  | nil => intro _; rfl
  | cons r rs ih =>
    intro h
    show (if r.name = cmd then _ else helpScan cmd rs) = _
    rw [if_neg (h r (List.mem_cons_self r rs))]
    exact ih (fun x hx => h x (List.mem_cons_of_mem r hx))

theorem helpScan_found (cmd : String) (r : DispatchRecord) (hr : r.name = cmd) :
    ∀ pre post : List DispatchRecord, (∀ x ∈ pre, x.name ≠ cmd) →
      helpScan cmd (pre ++ r :: post) =
        [Event.print "Usage: ", Event.print cmd, Event.print " ",
         Event.println r.helpString] := by
  intro pre
  induction pre with
  | nil =>
    intro post _
    show (if r.name = cmd then _ else helpScan cmd (([] : List DispatchRecord) ++ post)) = _
    rw [if_pos hr]
  | cons x xs ih =>
    intro post h
    rw [List.cons_append]
    show (if x.name = cmd then _ else helpScan cmd (xs ++ r :: post)) = _
    rw [if_neg (h x (List.mem_cons_self x xs))]
    exact ih post (fun y hy => h y (List.mem_cons_of_mem x hy))

theorem call_not_mem_helpScan (cmd : String) (i argc : Nat) (argv : List String) :
    ∀ table : List DispatchRecord, Event.call i argc argv ∉ helpScan cmd table := by
  intro table
  induction table with
  | nil => simp [helpScan]
  | cons r rs ih =>
    show Event.call i argc argv ∉ (if r.name = cmd then _ else helpScan cmd rs)
    by_cases h : r.name = cmd
    · rw [if_pos h]
      simp
    · rw [if_neg h]
      exact ih

theorem call_not_mem_helpBanner (i argc : Nat) (argv : List String)
    (table : List DispatchRecord) :
    Event.call i argc argv ∉ helpBanner table := by
  unfold helpBanner
  intro h
  rcases List.mem_append.mp h with h1 | h1
  · rcases List.mem_append.mp h1 with h2 | h2
    · simp at h2
    · obtain ⟨l, hl, hmem⟩ := List.mem_flatten.mp h2
      obtain ⟨r, -, rfl⟩ := List.mem_map.mp hl
      simp at hmem
  · simp at h1

theorem call_not_mem_help (i argc : Nat) (argv : List String)
    (table : List DispatchRecord) (argc2 : Nat) (argv2 : List String) :
    Event.call i argc argv ∉ helpCommandHandler table argc2 argv2 := by
  unfold helpCommandHandler
  by_cases h2 : argc2 = 2
  · rw [if_pos h2]
    by_cases hh : argv2.getD 1 "" = "help"
    · rw [if_pos hh]
      simp
    · rw [if_neg hh]
      exact call_not_mem_helpScan _ i argc argv table
  · rw [if_neg h2]
    exact call_not_mem_helpBanner i argc argv table

/-! Facts about the dispatch loop. -/

theorem runCalls_cons (s : DState) (o : Outcome) (os : List Outcome) :
    runCalls s (o :: os) =
      ((runCalls (stepCalls s o).1 os).1,
       (stepCalls s o).2 ++ (runCalls (stepCalls s o).1 os).2) := rfl

/-! The claims. -/

/-- C1, as stated, is false on the code: feeding the outcomes
[Overflow "abc", Overflow "def", Success "ghi"] to the dispatch loop in its
initial state produces THREE diagnostics, not two — the `while (isError)` body
of `runRoutine` prints `FlushToEOL` after every await, including for the
terminating Success fragment "ghi", so "ghi" does get a diagnostic (it is
still not dispatched). -/
theorem overflow_recovery_two_diagnostics_false :
    (runDispatcher [] DState.awaitLine
        [Outcome.overflow "abc", Outcome.overflow "def",
         Outcome.success "ghi"]).2 =
      [Event.print "BufferOverflow: ", Event.println "abc",
       Event.print "FlushToEOL: ", Event.println "def",
       Event.print "FlushToEOL: ", Event.println "ghi"] ∧
    Event.println "ghi" ∈
      (runDispatcher [] DState.awaitLine
        [Outcome.overflow "abc", Outcome.overflow "def",
         Outcome.success "ghi"]).2 := by
  decide

/-- C1 (amended): for the dispatch loop started in its initial state, feeding
[Overflow "abc", Overflow "def", Success "ghi"] produces exactly three
diagnostic calls — BufferOverflow for "abc", FlushToEOL for "def" and
FlushToEOL for "ghi" — dispatches nothing (in particular "ghi" is discarded
without a `runCommand` call), and then processes any further outcomes from the
fresh initial state. -/
theorem overflow_recovery_trace (table : List DispatchRecord)
    (rest : List Outcome) :
    runCalls DState.awaitLine
        ([Outcome.overflow "abc", Outcome.overflow "def",
          Outcome.success "ghi"] ++ rest) =
      ((runCalls DState.awaitLine rest).1,
        [Call.lineError "abc" STATUS_BUFFER_OVERFLOW,
         Call.lineError "def" STATUS_FLUSH_TO_EOL,
         Call.lineError "ghi" STATUS_FLUSH_TO_EOL] ++
          (runCalls DState.awaitLine rest).2) ∧
    runDispatcher table DState.awaitLine
        [Outcome.overflow "abc", Outcome.overflow "def",
         Outcome.success "ghi"] =
      (DState.awaitLine,
       [Event.print "BufferOverflow: ", Event.println "abc",
        Event.print "FlushToEOL: ", Event.println "def",
        Event.print "FlushToEOL: ", Event.println "ghi"]) := ⟨rfl, rfl⟩

/-- C2: for a registered entry `r` (any position in the table) whose name is
not "help", is non-empty, contains no delimiter and is not shadowed by an
earlier entry with the same name, processing the line `<name> x y` invokes
exactly that entry's handler — the trace is the single call event with the
entry's table index, argc = 3 and argv = [name, "x", "y"]; no print and no
other handler call occurs. -/
theorem dispatch_correctness (pre post : List DispatchRecord)
    (r : DispatchRecord) (hhelp : r.name ≠ "help") (hne : r.name.data ≠ [])
    (hnd : ∀ c ∈ r.name.data, isDelim c = false)
    (hfirst : ∀ x ∈ pre, x.name ≠ r.name) :
    runCommand (pre ++ r :: post) (r.name ++ " x y") =
      [Event.call pre.length 3 [r.name, "x", "y"]] := by
  unfold runCommand
  rw [tokenize_name_x_y r.name hne hnd]
  show (if r.name = "help" then _ else
    dispatchScan r.name 3 [r.name, "x", "y"] 0 (pre ++ r :: post)) = _
  rw [if_neg hhelp,
    dispatchScan_found r.name 3 [r.name, "x", "y"] r rfl pre post 0 hfirst]
  simp

/-- C2 witness: a one-entry table, its entry invoked on "foo x y". -/
theorem dispatch_correctness_witness :
    runCommand [DispatchRecord.mk "foo" "args"] "foo x y" =
      [Event.call 0 3 ["foo", "x", "y"]] :=
  dispatch_correctness [] [] (DispatchRecord.mk "foo" "args")
    (by decide) (by decide) (by decide) (by simp)

/-- C3: the tokenizer never emits an empty token and never emits a delimiter
character inside a token (consecutive delimiters collapse, leading and
trailing delimiters are ignored); tokenizing "a  b\tc" yields exactly
["a", "b", "c"]; tokenizing the empty string yields argc = 0; tokenizing a
string of only delimiters yields argc = 0. -/
theorem tokenize_splitting :
    (∀ (line : String) (t : String), t ∈ tokenize ARGV_SIZE line →
      t ≠ "" ∧ ∀ c ∈ t.data, isDelim c = false) ∧
    tokenize ARGV_SIZE "a  b\tc" = ["a", "b", "c"] ∧
    tokenize ARGV_SIZE "" = [] ∧
    (∀ line : String, (∀ c ∈ line.data, isDelim c = true) →
      tokenize ARGV_SIZE line = []) := by
  refine ⟨?_, by decide, by decide, tokenize_all_delim⟩
  intro line t ht
  obtain ⟨cs, hcs, rfl⟩ := List.mem_map.mp ht
  obtain ⟨h1, h2⟩ := tokenizeGo_tokens_ok isDelim ARGV_SIZE line.data cs hcs
  constructor
  · intro hcontra
    apply h1
    have hdat : (List.asString cs).data = cs := asString_data cs
    rw [hcontra] at hdat
    exact hdat.symm
  · intro c hc
    exact h2 c (by rw [asString_data] at hc; exact hc)

/-- C3 witness: the general no-empty-token property applied to the token "a"
of "a  b\tc", and the all-delimiter case applied to a concrete line. -/
theorem tokenize_splitting_witness :
    ("a" ≠ "" ∧ ∀ c ∈ "a".data, isDelim c = false) ∧
    tokenize ARGV_SIZE " \t " = [] :=
  ⟨tokenize_splitting.1 "a  b\tc" "a" (by decide),
   tokenize_splitting.2.2.2 " \t " (by decide)⟩

/-- C4: a line with more than ARGV_SIZE (= 10) tokens tokenizes to exactly the
first ARGV_SIZE tokens, in order; the excess is silently dropped (the result
is a plain token list, no diagnostic of any kind exists in the tokenizer). -/
theorem tokenize_truncation (line : String)
    (h : ARGV_SIZE < (allTokens isDelim line.data).length) :
    tokenize ARGV_SIZE line =
      ((allTokens isDelim line.data).take ARGV_SIZE).map List.asString ∧
    (tokenize ARGV_SIZE line).length = ARGV_SIZE := by
  constructor
  · unfold tokenize
    rw [tokenizeGo_eq_take]
  · unfold tokenize
    rw [tokenizeGo_eq_take, List.length_map, List.length_take]
    omega

/-- C4 witness: a 12-token line truncates to 10 tokens. -/
theorem tokenize_truncation_witness :
    (tokenize ARGV_SIZE "a b c d e f g h i j k l").length = ARGV_SIZE :=
  (tokenize_truncation "a b c d e f g h i j k l" (by decide)).2

/-- C5: a line whose first token is not "help" and matches no table entry
produces exactly the single "Unknown command: " diagnostic (two serial writes,
one logical diagnostic) and no handler call; and such a line, arriving as a
Success outcome at the resting state, leaves the loop at the resting state —
the error is consumed locally and the dispatcher keeps running. -/
theorem unknown_command_diagnostic (table : List DispatchRecord)
    (line cmd : String) (args : List String)
    (htok : tokenize ARGV_SIZE line = cmd :: args)
    (hhelp : cmd ≠ "help")
    (hnone : ∀ r ∈ table, r.name ≠ cmd) :
    runCommand table line =
      [Event.print "Unknown command: ", Event.println cmd] ∧
    stepCalls DState.awaitLine (Outcome.success line) =
      (DState.awaitLine, [Call.command line]) := by
  refine ⟨?_, rfl⟩
  unfold runCommand
  rw [htok]
  show (if cmd = "help" then _
        else dispatchScan cmd (cmd :: args).length (cmd :: args) 0 table) = _
  rw [if_neg hhelp]
  exact dispatchScan_not_found cmd (cmd :: args).length (cmd :: args) table 0 hnone

/-- C5 witness: "bar x" against a table registering only "foo". -/
theorem unknown_command_diagnostic_witness :
    runCommand [DispatchRecord.mk "foo" "args"] "bar x" =
      [Event.print "Unknown command: ", Event.println "bar"] :=
  (unknown_command_diagnostic [DispatchRecord.mk "foo" "args"] "bar x" "bar"
    ["x"] (by decide) (by decide) (by decide)).1

/-- C6: for every table — including one registering an entry literally named
"help" — a line whose first token is "help" is handled by the built-in help
handler, and no handler call event whatsoever appears in the output, so a
registered entry named "help" is never invoked. -/
theorem help_intercepted (table : List DispatchRecord) (line : String)
    (args : List String)
    (htok : tokenize ARGV_SIZE line = "help" :: args) :
    runCommand table line =
      helpCommandHandler table ("help" :: args).length ("help" :: args) ∧
    ∀ (i argc : Nat) (argv : List String),
      Event.call i argc argv ∉ runCommand table line := by
  have hmain : runCommand table line =
      helpCommandHandler table ("help" :: args).length ("help" :: args) := by
    unfold runCommand
    rw [htok]
    show (if "help" = "help" then
        helpCommandHandler table ("help" :: args).length ("help" :: args)
      else dispatchScan "help" ("help" :: args).length ("help" :: args) 0 table) =
      helpCommandHandler table ("help" :: args).length ("help" :: args)
    rw [if_pos rfl]
  refine ⟨hmain, ?_⟩
  intro i argc argv
  rw [hmain]
  exact call_not_mem_help i argc argv table _ _

/-- C6 witness: the table registers an entry named "help"; its handler is not
invoked on the line "help". -/
theorem help_intercepted_witness :
    Event.call 0 1 ["help"] ∉
      runCommand [DispatchRecord.mk "help" "shadowed"] "help" :=
  (help_intercepted [DispatchRecord.mk "help" "shadowed"] "help" []
    (by decide)).2 0 1 ["help"]

/-- C7: the help subsystem. (a) any argc other than 2 prints the usage banner
followed by the literal "help" and every registered name in table order;
(b) the line "help" prints that banner; (c) the line "help help" prints the
fixed usage line; (d) "help <name>" for a registered, unshadowed,
delimiter-free name prints exactly "Usage: <name> <helpString>"; (e)
"help <name>" for an unregistered delimiter-free name prints the
"Unknown command: " diagnostic for that name. -/
theorem help_command_behavior (table : List DispatchRecord) :
    (∀ (argc : Nat) (argv : List String), argc ≠ 2 →
      helpCommandHandler table argc argv = helpBanner table) ∧
    runCommand table "help" = helpBanner table ∧
    runCommand table "help help" = [Event.println "Usage: help [command]"] ∧
    (∀ (pre post : List DispatchRecord) (r : DispatchRecord),
      table = pre ++ r :: post → r.name ≠ "help" → r.name.data ≠ [] →
      (∀ c ∈ r.name.data, isDelim c = false) →
      (∀ x ∈ pre, x.name ≠ r.name) →
      runCommand table ("help " ++ r.name) =
        [Event.print "Usage: ", Event.print r.name, Event.print " ",
         Event.println r.helpString]) ∧
    (∀ name : String, name ≠ "help" → name.data ≠ [] →
      (∀ c ∈ name.data, isDelim c = false) →
      (∀ x ∈ table, x.name ≠ name) →
      runCommand table ("help " ++ name) =
        [Event.print "Unknown command: ", Event.println name]) := by
  refine ⟨?_, rfl, rfl, ?_, ?_⟩
  · intro argc argv h
    unfold helpCommandHandler
    rw [if_neg h]
  · intro pre post r htab hhelp hne hnd hfirst
    unfold runCommand
    rw [tokenize_help_name r.name hne hnd]
    show helpCommandHandler table 2 ["help", r.name] = _
    unfold helpCommandHandler
    rw [if_pos rfl]
    show (if r.name = "help" then _ else helpScan r.name table) = _
    rw [if_neg hhelp, htab]
    exact helpScan_found r.name r rfl pre post hfirst
  · intro name hhelp hne hnd hnone
    unfold runCommand
    rw [tokenize_help_name name hne hnd]
    show helpCommandHandler table 2 ["help", name] = _
    unfold helpCommandHandler
    rw [if_pos rfl]
    show (if name = "help" then _ else helpScan name table) = _
    rw [if_neg hhelp]
    exact helpScan_not_found name table hnone

/-- C7 witness: "help foo" against a table registering "foo" prints its usage,
and "help bar" against the same table reports an unknown command. -/
theorem help_command_behavior_witness :
    runCommand [DispatchRecord.mk "foo" "args"] ("help " ++ "foo") =
      [Event.print "Usage: ", Event.print "foo", Event.print " ",
       Event.println "args"] ∧
    runCommand [DispatchRecord.mk "foo" "args"] ("help " ++ "bar") =
      [Event.print "Unknown command: ", Event.println "bar"] :=
  ⟨(help_command_behavior [DispatchRecord.mk "foo" "args"]).2.2.2.1 [] []
    (DispatchRecord.mk "foo" "args") rfl (by decide) (by decide) (by decide)
    (by simp),
   (help_command_behavior [DispatchRecord.mk "foo" "args"]).2.2.2.2 "bar"
    (by decide) (by decide) (by decide) (by decide)⟩

/-- C8: after any sequence of outcomes ending in a Success outcome — in
particular after any completed error-recovery path — the loop is back at the
resting state `awaitLine`; from the resting state every Success line is
handed to `runCommand` (tokenized and dispatched normally) and the loop stays
at the resting state; the step function is total, so the dispatcher never
terminates on malformed input. -/
theorem loop_reentrancy (s : DState) (os : List Outcome) (l l2 : String)
    (table : List DispatchRecord) :
    (runCalls s (os ++ [Outcome.success l])).1 = DState.awaitLine ∧
    stepCalls DState.awaitLine (Outcome.success l2) =
      (DState.awaitLine, [Call.command l2]) ∧
    Call.output table (Call.command l2) = runCommand table l2 := by
  refine ⟨?_, rfl, rfl⟩
  induction os generalizing s with
  | nil => cases s <;> rfl
  | cons o os ih =>
    rw [List.cons_append, runCalls_cons]
    exact ih (stepCalls s o).1

/-- C9: every `printLineError` call the dispatch loop ever makes — over any
outcome sequence from any state — passes STATUS_BUFFER_OVERFLOW or
STATUS_FLUSH_TO_EOL, and for those status codes `printLineError` never takes
its "UnknownError" fallback branch. -/
theorem printLineError_status_codes (s0 : DState) (os : List Outcome)
    (l : String) (c : Nat)
    (h : Call.lineError l c ∈ (runCalls s0 os).2) :
    (c = STATUS_BUFFER_OVERFLOW ∨ c = STATUS_FLUSH_TO_EOL) ∧
    printLineError l c ≠ [Event.println "UnknownError"] := by
  have hc : c = STATUS_BUFFER_OVERFLOW ∨ c = STATUS_FLUSH_TO_EOL := by
    induction os generalizing s0 with
    | nil => simp [runCalls] at h
    | cons o os ih =>
      rw [runCalls_cons] at h
      rcases List.mem_append.mp h with h1 | h2
      · cases s0 <;> cases o <;>
          simp only [stepCalls, List.mem_singleton] at h1 <;>
          first
          | (simp only [Call.lineError.injEq] at h1; omega)
          | simp at h1
      · exact ih (stepCalls s0 o).1 h2
  refine ⟨hc, ?_⟩
  rcases hc with rfl | rfl <;>
    simp [printLineError, STATUS_BUFFER_OVERFLOW, STATUS_FLUSH_TO_EOL]

/-- C9 witness: an overflow at the resting state calls `printLineError` with
STATUS_BUFFER_OVERFLOW, which does not print "UnknownError". -/
theorem printLineError_status_codes_witness :
    (STATUS_BUFFER_OVERFLOW = STATUS_BUFFER_OVERFLOW ∨
      STATUS_BUFFER_OVERFLOW = STATUS_FLUSH_TO_EOL) ∧
    printLineError "x" STATUS_BUFFER_OVERFLOW ≠
      [Event.println "UnknownError"] :=
  printLineError_status_codes DState.awaitLine [Outcome.overflow "x"] "x"
    STATUS_BUFFER_OVERFLOW (by decide)

/-- C10: a line made only of delimiters (or empty) tokenizes to argc = 0 and
`runCommand` is a complete no-op: no handler call and no output event at all,
not even a diagnostic. -/
theorem empty_line_noop (table : List DispatchRecord) (line : String)
    (h : ∀ c ∈ line.data, isDelim c = true) :
    runCommand table line = [] := by
  unfold runCommand
  rw [tokenize_all_delim line h]

/-- C10 witness: the all-delimiter line "  \t " is a no-op against a nonempty
table. -/
theorem empty_line_noop_witness :
    runCommand [DispatchRecord.mk "foo" "args"] "  \t " = [] :=
  empty_line_noop [DispatchRecord.mk "foo" "args"] "  \t " (by decide)

end AceRoutineCli
